import Mathlib

/-!
Verification development for the `celery_opentracing` instrumentation
(`src/celery_opentracing/tracing.py`).  The module attaches OpenTracing
spans to Celery task lifecycle signals.  We shallowly embed the Python
values the handlers manipulate, the tracer and task state they mutate,
and each signal handler as an explicit state transformer that also
reports the exception the Python code would raise, if any (mutations
performed before the raise are kept, matching Python semantics).
-/

namespace CeleryOT

/-- Primitive Python values reaching the instrumented code paths. -/
inductive Prim where
  | str (s : String)
  | intV (n : Int)
  | boolV (b : Bool)
deriving DecidableEq, Repr

/-- Flat Python values: primitives, lists of optional primitives and
string-keyed dicts of optional primitives.  A Python `None` is `none`. -/
inductive Flat where
  | prim (p : Prim)
  | flist (xs : List (Option Prim))
  | fdict (xs : List (String × Option Prim))
deriving DecidableEq, Repr

/-- Python values the handlers inspect: flat values, tuples of optional
flat values (the legacy message-body encoding) and the opaque payload
`tracer.inject` writes for a given span. -/
inductive Val where
  | flat (f : Flat)
  | tupleV (xs : List (Option Flat))
  | injectedV (spanId : Nat)
deriving DecidableEq, Repr

def Val.str (s : String) : Val := .flat (.prim (.str s))

def Val.intV (n : Int) : Val := .flat (.prim (.intV n))

def Val.boolV (b : Bool) : Val := .flat (.prim (.boolV b))

/-- A top-level string-keyed dict (message headers, request metadata). -/
abbrev Dict := List (String × Option Val)

/-- A per-task side-table key; Python allows `None` here. -/
abbrev Key := Option Val

def lookupD : Dict → String → Option Val
  | [], _ => none
  | p :: rest, k => if p.1 == k then p.2 else lookupD rest k

def setD (d : Dict) (k : String) (v : Option Val) : Dict :=
  if d.any (fun p => p.1 == k) then
    d.map (fun p => if p.1 == k then (k, v) else p)
  else d ++ [(k, v)]

def lookupPrim : List (String × Option Prim) → String → Option Prim
  | [], _ => none
  | p :: rest, k => if p.1 == k then p.2 else lookupPrim rest k

/-- Python truthiness for the values of our embedding. -/
def Val.truthy : Val → Bool
  | .flat (.prim (.str s)) => !(s == "")
  | .flat (.prim (.intV n)) => !(n == 0)
  | .flat (.prim (.boolV b)) => b
  | .flat (.flist xs) => !xs.isEmpty
  | .flat (.fdict xs) => !xs.isEmpty
  | .tupleV xs => !xs.isEmpty
  | .injectedV _ => true

def pyTruthy : Option Val → Bool
  | none => false
  | some v => v.truthy

/-- Python `a or b` on optional values. -/
def pyOr (a b : Option Val) : Option Val :=
  if pyTruthy a then a else b

def Prim.format : Prim → String
  | .str s => s
  | .intV n => toString n
  | .boolV true => "True"
  | .boolV false => "False"

/-- `str(v)`; container reprs are abbreviated, no claim formats one. -/
def Val.format : Val → String
  | .flat (.prim p) => p.format
  | .flat (.flist _) => "[list]"
  | .flat (.fdict _) => "[dict]"
  | .tupleV _ => "[tuple]"
  | .injectedV n => "[context " ++ toString n ++ "]"

def pyFormat : Option Val → String
  | none => "None"
  | some v => v.format

/-- Exceptions the handlers can raise. -/
inductive Err where
  | runtimeError (msg : String)
  | keyError (key : Key)
  | attributeError (msg : String)
  | indexError
deriving DecidableEq, Repr

/-- A span context: either extracted from a propagation payload by
`tracer.extract`, or the context of a span in this process (used for
implicit parenting from the active scope and for `tracer.inject`). -/
inductive SpanContext where
  | extracted (payload : Val)
  | ofSpan (spanId : Nat)
deriving DecidableEq, Repr

/-- A resolved exception object (its `str()` and its class name). -/
structure Exc where
  msg : String
  kind : String
deriving DecidableEq, Repr

/-- Values appearing in `span.log_kv` entries. -/
inductive LogV where
  | vstr (s : String)
  | vexc (e : Exc)
deriving DecidableEq, Repr

structure SpanData where
  name : String
  parent : Option SpanContext
  tags : List (String × Val)
  logs : List (List (String × LogV))
  finished : Bool
deriving DecidableEq, Repr

/-- Tracer state: the spans created so far (a span handle is its index)
and the scope stack, head = currently active scope. -/
structure TracerState where
  spans : List SpanData
  stack : List Nat
deriving DecidableEq, Repr

def updateSpan (ts : TracerState) (i : Nat) (f : SpanData → SpanData) : TracerState :=
  match ts.spans[i]? with
  | some s => { ts with spans := ts.spans.set i (f s) }
  | none => ts

def addTags (ts : TracerState) (i : Nat) (newTags : List (String × Val)) : TracerState :=
  updateSpan ts i (fun s => { s with tags := s.tags ++ newTags })

def addLog (ts : TracerState) (i : Nat) (entry : List (String × LogV)) : TracerState :=
  updateSpan ts i (fun s => { s with logs := s.logs ++ [entry] })

def finishSpan (ts : TracerState) (i : Nat) : TracerState :=
  updateSpan ts i (fun s => { s with finished := true })

def newSpanId (ts : TracerState) : Nat := ts.spans.length

/-- `tracer.start_active_span(name, child_of, ignore_active_span, tags)`:
the parent is the explicit `child_of` when given, else the active span
unless `ignore_active_span`; the new span becomes the active scope. -/
def startActiveSpan (ts : TracerState) (name : String) (childOf : Option SpanContext)
    (ignoreActive : Bool) (tags : List (String × Val)) : TracerState :=
  let parent := match childOf with
    | some c => some c
    | none => if ignoreActive then none else ts.stack.head?.map SpanContext.ofSpan
  { spans := ts.spans ++ [{ name := name, parent := parent, tags := tags,
                            logs := [], finished := false }],
    stack := newSpanId ts :: ts.stack }

/-- The task's runtime request as the handlers access it: the direct
propagation attribute, `request.headers`, `request.correlation_id`, and
the mapping view used as a tag source. -/
structure Request where
  ctxAttr : Option Val
  headers : Dict
  correlationId : Option Val
  meta : Dict
deriving DecidableEq, Repr

/-- A task definition: its name, the identity of its owning app (none if
the `app` attribute is missing), its request, and the span side-table
(`_ct_spans`; none while the attribute does not exist yet). -/
structure TaskState where
  name : String
  app : Option Nat
  request : Request
  spansTable : Option (List (Key × Nat))
deriving DecidableEq, Repr

/-- The instrumentation instance: its identity and configuration. -/
structure CeleryTracing where
  appId : Nat
  propagate : Bool
  spanTags : List (String × Val)
deriving DecidableEq, Repr

/-- The state a handler invocation can observe and mutate: the tracer,
the resolved task (none when the registry lookup fails) and the scope
leak warnings logged so far (pairs of active span and finished span). -/
structure SysState where
  tracer : TracerState
  task : Option TaskState
  warns : List (Nat × Nat)
deriving DecidableEq, Repr

def context_headers : String := "_celery_opentracing_context"

def lookupK : List (Key × Nat) → Key → Option Nat
  | [], _ => none
  | p :: rest, k => if p.1 == k then some p.2 else lookupK rest k

def setK (tbl : List (Key × Nat)) (k : Key) (v : Nat) : List (Key × Nat) :=
  if tbl.any (fun p => p.1 == k) then
    tbl.map (fun p => if p.1 == k then (k, v) else p)
  else tbl ++ [(k, v)]

def eraseK (tbl : List (Key × Nat)) (k : Key) : List (Key × Nat) :=
  tbl.filter (fun p => !(p.1 == k))

/-- `_is_local`: the task owns an `app` attribute and it is this
instance (`app is self`); a missing task or missing attribute is
non-local. -/
def _is_local (app : CeleryTracing) (item : Option TaskState) : Bool :=
  match item with
  | some t => t.app == some app.appId
  | none => false

/-- `_get_span`: returns `None` when the side-table attribute does not
exist; otherwise indexes (raising `KeyError` on a missing key), popping
the entry when `remove` is set. -/
def _get_span (task : TaskState) (taskId : Key) (remove : Bool) :
    Except Err (Option Nat × TaskState) :=
  match task.spansTable with
  | none => .ok (none, task)
  | some tbl =>
    match lookupK tbl taskId with
    | some sid =>
      if remove then .ok (some sid, { task with spansTable := some (eraseK tbl taskId) })
      else .ok (some sid, task)
    | none => .error (.keyError taskId)

/-- The sentinel test of `_set_span_tags`:
`val in (None, '', [None, None], (None, None))`. -/
def sentinel (v : Option Val) : Bool :=
  v == none || v == some (Val.str "") ||
    v == some (.flat (.flist [none, none])) || v == some (.tupleV [none, none])

def renameTag (t : String) : String :=
  if t == "hostname" then "worker.hostname"
  else if t == "origin" then "task.origin"
  else t

def tagAllowList : List String :=
  ["countdown", "delivery_info", "eta", "expires", "group", "hostname",
   "origin", "retries", "timelimit"]

def subtagList : List String :=
  ["exchange", "priority", "redelivered", "routing_key", "queue"]

/-- One `delivery_info` sub-field: when present and not in `(None, '')`,
emit `celery.delivery.<sub>` and, for the three locator sub-fields, also
overwrite `message_bus.destination`. -/
def deliverySub (d : List (String × Option Prim)) (sub : String) : List (String × Val) :=
  match lookupPrim d sub with
  | none => []
  | some p =>
    if p == .str "" then []
    else
      ("celery.delivery." ++ sub, Val.flat (.prim p)) ::
        (if sub == "exchange" || sub == "routing_key" || sub == "queue" then
          [("message_bus.destination", Val.flat (.prim p))]
        else [])

/-- The tags one allow-listed field contributes.  A non-dict
`delivery_info` value has no `.get` and raises. -/
def oneTag (get : String → Option Val) (t : String) : Except Err (List (String × Val)) :=
  if sentinel (get t) then .ok []
  else if t == "delivery_info" then
    match get t with
    | some (.flat (.fdict d)) => .ok (subtagList.map (deliverySub d)).flatten
    | _ => .error (.attributeError "object has no attribute get")
  else
    match get t with
    | some v => .ok [("celery." ++ renameTag t, v)]
    | none => .ok []

def setTagsAux (get : String → Option Val) : List String → Except Err (List (String × Val))
  | [] => .ok []
  | t :: rest => do
    let x ← oneTag get t
    let xs ← setTagsAux get rest
    return x ++ xs

/-- `_set_span_tags`: the component tag, then the allow-listed fields in
order.  The span mutation is threaded by the caller; this computes the
`set_tag` calls in order. -/
def _set_span_tags (get : String → Option Val) : Except Err (List (String × Val)) := do
  let parts ← setTagsAux get tagAllowList
  return ("component", Val.str "celery") :: parts

/-- Mapping view of a top-level dict. -/
def dictGet (d : Dict) : String → Option Val := fun k => lookupD d k

def primDictGet (d : List (String × Option Prim)) : String → Option Val :=
  fun k => (lookupPrim d k).map (fun p => Val.flat (.prim p))

/-- `.get` attribute dispatch on an arbitrary value: only dicts have it. -/
def valGetter : Option Val → Except Err (String → Option Val)
  | some (.flat (.fdict d)) => .ok (primDictGet d)
  | _ => .error (.attributeError "object has no attribute get")

/-- `kwargs.get('body', {}).get('id')`: evaluated only when the headers
id is falsy; a non-dict body has no `.get`. -/
def bodyIdLookup : Option Val → Except Err (Option Val)
  | none => .ok none
  | some (.flat (.fdict d)) => .ok ((lookupPrim d "id").map (fun p => Val.flat (.prim p)))
  | some _ => .error (.attributeError "object has no attribute get")

/-- `kwargs.get('headers', {}).get('id') or kwargs.get('body', {}).get('id')`;
the body lookup is evaluated only when the headers id is falsy. -/
def resolveTaskId (headers : Option Dict) (body : Option Val) : Except Err (Option Val) :=
  if pyTruthy (lookupD (headers.getD []) "id") then .ok (lookupD (headers.getD []) "id")
  else bodyIdLookup body

/-- The body value handed to tag extraction in `_prepublish`: a tuple
body (celery 4.0) is replaced by its element at index 2 first. -/
def bodyMeta : Option Val → Except Err (Option Val)
  | some (.tupleV xs) =>
    match xs.get? 2 with
    | some el => .ok (el.map Val.flat)
    | none => .error .indexError
  | b => .ok b

/-- The shared closing logic of `_postpublish` and `_finish_span`
(lines 100-105 and 189-194): read `scope_manager.active` (raising when
there is no active scope, since `None` has no `.span`), close the scope
when its span is the retrieved one, else finish the span directly and
log a scope-leak warning. -/
def closeOrFinish (st : SysState) (span : Option Nat) : SysState × Option Err :=
  match st.tracer.stack with
  | [] => (st, some (.attributeError "NoneType object has no attribute span"))
  | active :: rest =>
    match span with
    | some s =>
      if active == s then
        let tr := finishSpan st.tracer s
        ({ st with tracer := { tr with stack := rest } }, none)
      else
        ({ st with tracer := finishSpan st.tracer s,
                   warns := st.warns ++ [(active, s)] }, none)
    | none => (st, some (.attributeError "NoneType object has no attribute finish"))

/-- `_prepublish` also mutates the caller-owned headers dict (the
propagation payload is injected into it), so its result carries the
final headers. -/
structure PrepubRes where
  st : SysState
  headers : Option Dict
  err : Option Err
deriving DecidableEq, Repr

def _prepublish (app : CeleryTracing) (headers : Option Dict) (body : Option Val)
    (st : SysState) : PrepubRes :=
  match st.task with
  | none => ⟨st, headers, none⟩
  | some task =>
  if !(_is_local app (some task)) then ⟨st, headers, none⟩
  else
    let sid := newSpanId st.tracer
    let tr1 := startActiveSpan st.tracer ("publish " ++ task.name) none false app.spanTags
    let st1 := { st with tracer := tr1 }
    match resolveTaskId headers body with
    | .error e => ⟨st1, headers, some e⟩
    | .ok none => ⟨st1, headers, some (.runtimeError "task_id is never expected to be None.")⟩
    | .ok (some taskId) =>
      let st2 := { st1 with tracer := addTags st1.tracer sid [("celery.task.id", taskId)] }
      match _set_span_tags (dictGet task.request.meta) with
      | .error e => ⟨st2, headers, some e⟩
      | .ok reqTags =>
        let st3 := { st2 with tracer := addTags st2.tracer sid reqTags }
        match bodyMeta body with
        | .error e => ⟨st3, headers, some e⟩
        | .ok body2 =>
          match valGetter body2 with
          | .error e => ⟨st3, headers, some e⟩
          | .ok bget =>
            match _set_span_tags bget with
            | .error e => ⟨st3, headers, some e⟩
            | .ok bodyTags =>
              let st4 := { st3 with tracer := addTags st3.tracer sid bodyTags }
              let key : Key := some (Val.str ("publish:" ++ taskId.format))
              let newTable := some (setK (task.spansTable.getD []) key sid)
              let storeTask := { task with spansTable := newTable }
              match headers with
              | none => ⟨{ st4 with task := some storeTask }, none, none⟩
              | some h =>
                match _set_span_tags (dictGet h) with
                | .error e => ⟨st4, some h, some e⟩
                | .ok hTags =>
                  let st5 := { st4 with tracer := addTags st4.tracer sid hTags }
                  let h2 := if app.propagate then
                      setD h context_headers (some (.injectedV sid))
                    else h
                  ⟨{ st5 with task := some storeTask }, some h2, none⟩

def _postpublish (app : CeleryTracing) (headers : Option Dict) (body : Option Val)
    (st : SysState) : SysState × Option Err :=
  match st.task with
  | none => (st, none)
  | some task =>
  if !(_is_local app (some task)) then (st, none)
  else
    match resolveTaskId headers body with
    | .error e => (st, some e)
    | .ok taskId =>
      let key : Key := some (Val.str ("publish:" ++ pyFormat taskId))
      match _get_span task key true with
      | .error e => (st, some e)
      | .ok (span, task2) =>
        closeOrFinish { st with task := some task2 } span

def _start_span (app : CeleryTracing) (taskIdKw : Option (Option Val))
    (st : SysState) : SysState × Option Err :=
  match st.task with
  | none => (st, none)
  | some task =>
  if !(_is_local app (some task)) then (st, none)
  else
    let parent : Option SpanContext :=
      if app.propagate then
        match pyOr task.request.ctxAttr (lookupD task.request.headers context_headers) with
        | some c => if c.truthy then some (.extracted c) else none
        | none => none
      else none
    let sid := newSpanId st.tracer
    let tr1 := startActiveSpan st.tracer task.name parent true app.spanTags
    let st1 := { st with tracer := tr1 }
    match taskIdKw.getD task.request.correlationId with
    | none => (st1, some (.runtimeError "task_id is never expected to be None."))
    | some idv =>
      let st2 := { st1 with tracer := addTags st1.tracer sid [("celery.task.id", idv)] }
      match _set_span_tags (dictGet task.request.meta) with
      | .error e => (st2, some e)
      | .ok reqTags =>
        let st3 := { st2 with tracer := addTags st2.tracer sid reqTags }
        let newTable := some (setK (task.spansTable.getD []) (some idv) sid)
        let task2 := { task with spansTable := newTable }
        ({ st3 with task := some task2 }, none)

/-- `einfo` as `_tag_error` reads it. -/
structure EInfo where
  exception : Exc
  tb : Option Nat
deriving DecidableEq, Repr

/-- `traceback.format_tb` joined, modelled opaquely on traceback ids. -/
def formatTb (tb : Nat) : String := "traceback-" ++ toString tb

def _tag_error (app : CeleryTracing) (taskIdKw : Key) (exc : Option Exc)
    (einfo : Option EInfo) (tb : Option Nat) (st : SysState) : SysState × Option Err :=
  match st.task with
  | none => (st, none)
  | some task =>
  if !(_is_local app (some task)) then (st, none)
  else
    match _get_span task taskIdKw false with
    | .error e => (st, some e)
    | .ok (span, _) =>
      match span with
      | none => (st, some (.attributeError "NoneType object has no attribute set_tag"))
      | some sid =>
        let st1 := { st with tracer := addTags st.tracer sid [("error", Val.boolV true)] }
        let exc2 : Option Exc := match exc with
          | some e => some e
          | none => einfo.map EInfo.exception
        let tb2 : Option Nat := match tb with
          | some x => some x
          | none => einfo.bind EInfo.tb
        let entry : List (String × LogV) :=
          ("event", .vstr "error") ::
          (match exc2 with
           | none => []
           | some e =>
             [("message", .vstr e.msg), ("error.object", .vexc e),
              ("error.kind", .vstr e.kind)] ++
             (match tb2 with
              | none => []
              | some x => [("stack", .vstr (formatTb x))]))
        ({ st1 with tracer := addLog st1.tracer sid entry }, none)

/-- `einfo.traceback` in `_tag_retry` may be a list (joined after
formatting) or an already-formatted value (stored as-is). -/
inductive RetryTb where
  | tlist (xs : List Nat)
  | tval (s : String)
deriving DecidableEq, Repr

structure REInfo where
  exception : Exc
  tb : Option RetryTb
deriving DecidableEq, Repr

def _tag_retry (app : CeleryTracing) (request : Option Dict) (reason : Option Val)
    (einfo : Option REInfo) (st : SysState) : SysState × Option Err :=
  match st.task with
  | none => (st, none)
  | some task =>
  if !(_is_local app (some task)) then (st, none)
  else
    let key : Key := lookupD (request.getD []) "id"
    match _get_span task key false with
    | .error e => (st, some e)
    | .ok (span, _) =>
      match span with
      | none => (st, some (.attributeError "NoneType object has no attribute set_tag"))
      | some sid =>
        let retryTags : List (String × Val) :=
          [("celery.retry", Val.boolV true),
           ("celery.retry.reason", Val.str (pyFormat reason))]
        let st1 := { st with tracer := addTags st.tracer sid retryTags }
        match einfo with
        | none => (st1, none)
        | some i =>
          let entry : List (String × LogV) :=
            [("event", .vstr "error"), ("message", .vstr i.exception.msg),
             ("error.object", .vexc i.exception), ("error.kind", .vstr i.exception.kind)] ++
            (match i.tb with
             | none => []
             | some (.tlist xs) => [("stack", .vstr (String.join (xs.map formatTb)))]
             | some (.tval s) => [("stack", .vstr s)])
          ({ st1 with tracer := addLog st1.tracer sid entry }, none)

def _finish_span (app : CeleryTracing) (taskIdKw : Key) (st : SysState) :
    SysState × Option Err :=
  match st.task with
  | none => (st, none)
  | some task =>
  if !(_is_local app (some task)) then (st, none)
  else
    match _get_span task taskIdKw true with
    | .error e => (st, some e)
    | .ok (span, task2) => closeOrFinish { st with task := some task2 } span

/-- One lifecycle signal delivery with its keyword payload. -/
inductive Ev where
  | prepub (headers : Option Dict) (body : Option Val)
  | postpub (headers : Option Dict) (body : Option Val)
  | prerun (taskIdKw : Option (Option Val))
  | failure (taskIdKw : Key) (exc : Option Exc) (einfo : Option EInfo) (tb : Option Nat)
  | retry (request : Option Dict) (reason : Option Val) (einfo : Option REInfo)
  | postrun (taskIdKw : Key)
deriving DecidableEq, Repr

def step (app : CeleryTracing) (e : Ev) (st : SysState) : SysState × Option Err :=
  match e with
  | .prepub h b => let r := _prepublish app h b st; (r.st, r.err)
  | .postpub h b => _postpublish app h b st
  | .prerun kw => _start_span app kw st
  | .failure kw exc ei tb => _tag_error app kw exc ei tb st
  | .retry req reason ei => _tag_retry app req reason ei st
  | .postrun kw => _finish_span app kw st

theorem lookupK_map_replace_ne (rest : List (Key × Nat)) (k : Key) (v : Nat) (k2 : Key)
    (h : ¬ k2 = k) :
    lookupK (rest.map (fun p => if p.1 == k then (k, v) else p)) k2 = lookupK rest k2 := by
  induction rest with
  | nil => rfl
  | cons q qs ih =>
    by_cases hq : q.1 = k
    · have h1 : (q.1 == k) = true := by simp [hq]
      have h2 : (k == k2) = false := by simp; exact fun hh => h hh.symm
      have h3 : (q.1 == k2) = false := by simp [hq]; exact fun hh => h hh.symm
      simp only [List.map_cons, h1, if_true, lookupK, h2, h3, Bool.false_eq_true, if_false]
      exact ih
    · have h1 : (q.1 == k) = false := by simp [hq]
      simp only [List.map_cons, h1, Bool.false_eq_true, if_false, lookupK]
      by_cases h2 : q.1 = k2
      · simp [h2]
      · have h3 : (q.1 == k2) = false := by simp [h2]
        simp only [h3, Bool.false_eq_true, if_false]
        exact ih

theorem lookupK_map_replace_eq (rest : List (Key × Nat)) (k : Key) (v : Nat)
    (h : rest.any (fun p => p.1 == k) = true) :
    lookupK (rest.map (fun p => if p.1 == k then (k, v) else p)) k = some v := by
  induction rest with
  | nil => simp at h
  | cons q qs ih =>
    by_cases hq : q.1 = k
    · have h1 : (q.1 == k) = true := by simp [hq]
      simp [List.map_cons, h1, lookupK]
    · have h1 : (q.1 == k) = false := by simp [hq]
      have h2 : qs.any (fun p => p.1 == k) = true := by
        simp only [List.any_cons, h1, Bool.false_or] at h
        exact h
      simp only [List.map_cons, h1, Bool.false_eq_true, if_false, lookupK]
      exact ih h2

theorem lookupK_append_fresh (tbl : List (Key × Nat)) (k k2 : Key) (v : Nat)
    (h : tbl.any (fun p => p.1 == k) = false) :
    lookupK (tbl ++ [(k, v)]) k2 = if k2 = k then some v else lookupK tbl k2 := by
  induction tbl with
  | nil =>
    by_cases hk : k2 = k
    · have : (k == k2) = true := by simp [hk]
      simp [lookupK, this, hk]
    · have : (k == k2) = false := by simp; exact fun hh => hk hh.symm
      simp [lookupK, this, hk]
  | cons q qs ih =>
    have h1 : (q.1 == k) = false := by
      simp only [List.any_cons] at h
      exact (Bool.or_eq_false_iff.mp h).1
    have h2 : qs.any (fun p => p.1 == k) = false := by
      simp only [List.any_cons] at h
      exact (Bool.or_eq_false_iff.mp h).2
    by_cases hq : q.1 = k2
    · have hk : ¬ k2 = k := by
        intro hh; rw [hh] at hq; exact (by simp [hq] at h1)
      have h3 : (q.1 == k2) = true := by simp [hq]
      simp [List.cons_append, lookupK, h3, hk]
    · have h3 : (q.1 == k2) = false := by simp [hq]
      simp only [List.cons_append, lookupK, h3, Bool.false_eq_true, if_false]
      exact ih h2

theorem lookupK_setK (tbl : List (Key × Nat)) (k : Key) (v : Nat) (k2 : Key) :
    lookupK (setK tbl k v) k2 = if k2 = k then some v else lookupK tbl k2 := by
  unfold setK
  by_cases hany : tbl.any (fun p => p.1 == k) = true
  · simp only [hany, if_true]
    by_cases hk : k2 = k
    · subst hk
      rw [if_pos rfl]
      exact lookupK_map_replace_eq tbl k2 v hany
    · rw [if_neg hk]
      exact lookupK_map_replace_ne tbl k v k2 hk
  · have hf : tbl.any (fun p => p.1 == k) = false := by
      cases hh : tbl.any (fun p => p.1 == k)
      · rfl
      · exact absurd hh hany
    simp only [hf, Bool.false_eq_true, if_false]
    exact lookupK_append_fresh tbl k k2 v hf

theorem lookupK_eraseK (tbl : List (Key × Nat)) (k k2 : Key) :
    lookupK (eraseK tbl k) k2 = if k2 = k then none else lookupK tbl k2 := by
  induction tbl with
  | nil => simp [eraseK, lookupK]
  | cons q qs ih =>
    by_cases hq : q.1 = k
    · have h1 : (q.1 == k) = true := by simp [hq]
      simp only [eraseK, List.filter_cons, h1, Bool.not_true]
      simp only [eraseK] at ih
      rw [if_neg (by simp)]
      rw [ih]
      by_cases hk : k2 = k
      · simp [hk]
      · have h2 : (q.1 == k2) = false := by
          simp [hq]; exact fun hh => hk hh.symm
        simp [hk, lookupK, h2]
    · have h1 : (q.1 == k) = false := by simp [hq]
      simp only [eraseK, List.filter_cons, h1, Bool.not_false, if_true]
      by_cases h2 : q.1 = k2
      · have h3 : (q.1 == k2) = true := by simp [h2]
        have hk : ¬ k2 = k := by rw [← h2]; exact fun hh => hq hh
        simp [lookupK, h3, hk]
      · have h3 : (q.1 == k2) = false := by simp [h2]
        simp only [lookupK, h3, Bool.false_eq_true, if_false]
        simp only [eraseK] at ih
        exact ih

theorem oneTag_error_shape (get : String → Option Val) (t : String) (e : Err)
    (h : oneTag get t = .error e) : e = .attributeError "object has no attribute get" := by
  unfold oneTag at h
  split at h
  · exact absurd h (by simp)
  · split at h
    · split at h
      · exact absurd h (by simp)
      · simp only [Except.error.injEq] at h
        exact h.symm
    · split at h
      · exact absurd h (by simp)
      · exact absurd h (by simp)

theorem setTagsAux_error_shape (get : String → Option Val) (l : List String) (e : Err)
    (h : setTagsAux get l = .error e) : e = .attributeError "object has no attribute get" := by
  induction l with
  | nil => simp [setTagsAux] at h
  | cons t rest ih =>
    simp only [setTagsAux, bind, Except.bind, pure, Except.pure] at h
    cases h1 : oneTag get t with
    | error e1 =>
      rw [h1] at h
      simp only [Except.error.injEq] at h
      subst h
      exact oneTag_error_shape get t e1 h1
    | ok x =>
      rw [h1] at h
      cases h2 : setTagsAux get rest with
      | error e2 =>
        rw [h2] at h
        simp only [Except.error.injEq] at h
        subst h
        exact ih h2
      | ok xs =>
        rw [h2] at h
        simp at h

theorem set_span_tags_error_shape (get : String → Option Val) (e : Err)
    (h : _set_span_tags get = .error e) : e = .attributeError "object has no attribute get" := by
  unfold _set_span_tags at h
  simp only [bind, Except.bind, pure, Except.pure] at h
  cases h1 : setTagsAux get tagAllowList with
  | error e1 =>
    rw [h1] at h
    simp only [Except.error.injEq] at h
    subst h
    exact setTagsAux_error_shape get tagAllowList e1 h1
  | ok x =>
    rw [h1] at h
    simp at h

theorem valGetter_error_shape (x : Option Val) (e : Err)
    (h : valGetter x = .error e) : e = .attributeError "object has no attribute get" := by
  unfold valGetter at h
  split at h
  · exact absurd h (by simp)
  · simp only [Except.error.injEq] at h
    exact h.symm

theorem bodyMeta_error_shape (x : Option Val) (e : Err)
    (h : bodyMeta x = .error e) : e = .indexError := by
  unfold bodyMeta at h
  split at h
  · split at h
    · exact absurd h (by simp)
    · simp only [Except.error.injEq] at h
      exact h.symm
  · exact absurd h (by simp)

/-- A propagate-enabled instrumentation instance with no static tags. -/
def sampleApp : CeleryTracing := ⟨1, true, []⟩

/-- An empty runtime request. -/
def emptyReq : Request := ⟨none, [], none, []⟩

/-- A local task (owned by `sampleApp`) with no side-table attribute. -/
def sampleTask : TaskState := ⟨"add", some 1, emptyReq, none⟩

/-- Fresh tracer, local task, no warnings. -/
def sampleState : SysState := ⟨⟨[], []⟩, some sampleTask, []⟩

/-- A task holding one running span (id 0) under key `"tid"`. -/
def storedTask : TaskState :=
  { sampleTask with spansTable := some [(some (Val.str "tid"), 0)] }

/-- An unfinished span as `_start_span` would create it. -/
def spanZero : SpanData := ⟨"add", none, [], [], false⟩

/-- `storedTask` with its span live but no active scope on the tracer. -/
def noScopeState : SysState := ⟨⟨[spanZero], []⟩, some storedTask, []⟩

/-- Headers whose id field is present but the empty string. -/
def emptyIdHeaders : Dict := [("id", some (Val.str ""))]

/-- Claim C10: when the task carries no span side-table attribute at
all, `_get_span` returns no span (`None`) instead of raising a
key-lookup failure, for every task-instance id and removal flag; a
`KeyError` can only arise once the attribute exists. -/
theorem get_span_no_table_returns_none (t : TaskState) (k : Key) (r : Bool)
    (h : t.spansTable = none) : _get_span t k r = .ok (none, t) := by
  simp [_get_span, h]

theorem get_span_no_table_returns_none_witness :
    sampleTask.spansTable = none ∧
      _get_span sampleTask (some (Val.str "abc")) true = .ok (none, sampleTask) :=
  ⟨rfl, get_span_no_table_returns_none sampleTask (some (Val.str "abc")) true rfl⟩

/-- Claim C2: on postrun of a local task whose running span is in the
side-table, but with no scope active at all (`scope_manager.active` is
`None`), the handler does not complete: it raises an `AttributeError`
because the code dereferences `.span` on the missing active scope.  The
code therefore does crash when another party has emptied the scope
stack, contradicting the claim. -/
theorem finish_span_no_active_scope_raises :
    lookupK [(some (Val.str "tid"), 0)] (some (Val.str "tid")) = some 0 ∧
    noScopeState.tracer.stack = [] ∧
    (_finish_span sampleApp (some (Val.str "tid")) noScopeState).2 =
      some (.attributeError "NoneType object has no attribute span") := by
  exact ⟨rfl, rfl, rfl⟩

/-- Claim C4 counterexample: the headers mapping yields an id (the
empty string), yet the handler still raises the fatal RuntimeError,
because the truthiness-based resolution treats the empty string as
absent and the body yields nothing. -/
theorem prepublish_header_id_present_yet_raises :
    (lookupD emptyIdHeaders "id").isSome = true ∧
    (_prepublish sampleApp (some emptyIdHeaders) (some (.flat (.fdict []))) sampleState).err =
      some (.runtimeError "task_id is never expected to be None.") := by
  exact ⟨rfl, rfl⟩

/-- Claim C4 amended: on a local task with a mapping (or absent) body,
prepublish raises the fatal RuntimeError exactly when the truthiness
based id resolution yields Python None, i.e. the headers id is falsy
and the body mapping has no id entry at all. -/
theorem prepublish_fatal_iff_id_resolves_none (app : CeleryTracing) (st : SysState)
    (task : TaskState) (headers : Option Dict) (body : Option Val)
    (hT : st.task = some task) (hL : task.app = some app.appId)
    (hB : body = none ∨ ∃ d, body = some (.flat (.fdict d))) :
    ((_prepublish app headers body st).err =
        some (.runtimeError "task_id is never expected to be None.") ↔
      resolveTaskId headers body = .ok none) := by
  obtain ⟨tid, htid⟩ : ∃ tid, resolveTaskId headers body = .ok tid := by
    unfold resolveTaskId
    by_cases ht : pyTruthy (lookupD (headers.getD []) "id") = true
    · exact ⟨_, by rw [if_pos ht]⟩
    · rcases hB with rfl | ⟨d, rfl⟩
      · exact ⟨_, by rw [if_neg ht]; rfl⟩
      · exact ⟨_, by rw [if_neg ht]; rfl⟩
  have hLb : _is_local app (some task) = true := by simp [_is_local, hL]
  unfold _prepublish
  simp only [hT, hLb, Bool.not_true, Bool.false_eq_true, if_false]
  cases tid with
  | none => simp only [htid]
  | some v =>
    simp only [htid]
    constructor
    · intro hc
      exfalso
      revert hc
      split
      · next e he =>
        intro hc
        simp only [Option.some.injEq] at hc
        have hs := set_span_tags_error_shape _ _ he
        rw [hc] at hs
        simp at hs
      · next reqTags hreq =>
        split
        · next e he =>
          intro hc
          simp only [Option.some.injEq] at hc
          have hs := bodyMeta_error_shape _ _ he
          rw [hc] at hs
          simp at hs
        · next body2 hbm =>
          split
          · next e he =>
            intro hc
            simp only [Option.some.injEq] at hc
            have hs := valGetter_error_shape _ _ he
            rw [hc] at hs
            simp at hs
          · next bget hvg =>
            split
            · next e he =>
              intro hc
              simp only [Option.some.injEq] at hc
              have hs := set_span_tags_error_shape _ _ he
              rw [hc] at hs
              simp at hs
            · next bodyTags hbt =>
              split
              · intro hc
                simp at hc
              · next h =>
                split
                · next e he =>
                  intro hc
                  simp only [Option.some.injEq] at hc
                  have hs := set_span_tags_error_shape _ _ he
                  rw [hc] at hs
                  simp at hs
                · intro hc
                  simp at hc
    · intro hc
      exact absurd hc (by simp)

theorem prepublish_fatal_iff_id_resolves_none_witness :
    (_prepublish sampleApp (some emptyIdHeaders) none sampleState).err =
      some (.runtimeError "task_id is never expected to be None.") :=
  (prepublish_fatal_iff_id_resolves_none sampleApp sampleState sampleTask
      (some emptyIdHeaders) none rfl rfl (Or.inl rfl)).mpr rfl

/-- A legacy 3-tuple body whose middle element and last element are
dicts with different `eta` values, to observe which one is tagged. -/
def tupleBody : Val :=
  .tupleV [some (.flist []),
           some (.fdict [("eta", some (.str "MID"))]),
           some (.fdict [("eta", some (.str "LAST"))])]

/-- Headers carrying the id `"abc"`. -/
def abcHeaders : Dict := [("id", some (Val.str "abc"))]

/-- Claim C6 counterexample: prepublish on a local task with the 3-tuple
body above completes, and the span carries the eta tag of the LAST
element (index 2), not of the middle element, so tag extraction was not
applied to the middle element. -/
theorem prepublish_tuple_body_not_middle :
    (_prepublish sampleApp (some abcHeaders) (some tupleBody) sampleState).err = none ∧
    ((_prepublish sampleApp (some abcHeaders) (some tupleBody) sampleState).st.tracer.spans.map
      (fun s => (s.tags.contains ("celery.eta", Val.str "LAST"),
                 s.tags.contains ("celery.eta", Val.str "MID")))) = [(true, false)] := by
  exact ⟨rfl, rfl⟩

/-- Claim C6 amended: for a legacy 3-tuple body, the metadata dict that
prepublish hands to tag extraction is the element at index 2 (the last
element of the 3-tuple), and a mapping body is handed over unchanged. -/
theorem bodyMeta_tuple_index_two (x y z : Option Flat) (d : List (String × Option Prim)) :
    bodyMeta (some (.tupleV [x, y, z])) = .ok (z.map Val.flat) ∧
    bodyMeta (some (.flat (.fdict d))) = .ok (some (.flat (.fdict d))) := by
  exact ⟨rfl, rfl⟩

/-- The value of the generic message-destination tag after a sequence of
`set_tag` calls: the last write wins. -/
def destTag (l : List (String × Val)) : Option Val :=
  ((l.filter (fun p => p.1 == "message_bus.destination")).getLast?).map (fun p => p.2)

/-- The skip rule for a `delivery_info` sub-field value: absent and
empty-string values produce no tag. -/
def subOk (o : Option Prim) : Option Prim :=
  match o with
  | none => none
  | some p => if p == .str "" then none else some p

theorem subOk_eq_self (o : Option Prim) (h : ∀ p, o = some p → p ≠ .str "") :
    subOk o = o := by
  match o with
  | none => rfl
  | some p =>
    have hp : (p == Prim.str "") = false := by
      have := h p rfl
      simp [this]
    simp [subOk, hp]

theorem oneTag_filter_dest (get : String → Option Val) (t : String)
    (ht : (t == "delivery_info") = false)
    (hk : (("celery." ++ renameTag t) == "message_bus.destination") = false) :
    ∃ l, oneTag get t = .ok l ∧
      l.filter (fun p => p.1 == "message_bus.destination") = [] := by
  cases hsent : sentinel (get t) with
  | true => exact ⟨[], by simp [oneTag, ht, hsent], rfl⟩
  | false =>
    cases hg : get t with
    | none => exact ⟨[], by simp [oneTag, ht, hsent, hg], rfl⟩
    | some v =>
      have hsv : sentinel (some v) = false := by rw [← hg]; exact hsent
      refine ⟨[("celery." ++ renameTag t, v)], by simp [oneTag, ht, hg, hsv], ?_⟩
      simp [List.filter, hk]

theorem deliverySub_filter_dest (d : List (String × Option Prim)) (sub : String)
    (hk : (("celery.delivery." ++ sub) == "message_bus.destination") = false) :
    (deliverySub d sub).filter (fun p => p.1 == "message_bus.destination") =
      (if sub == "exchange" || sub == "routing_key" || sub == "queue" then
        match subOk (lookupPrim d sub) with
        | none => []
        | some p => [("message_bus.destination", Val.flat (.prim p))]
      else []) := by
  unfold deliverySub
  cases hp : lookupPrim d sub with
  | none => simp [subOk]
  | some p =>
    by_cases hpe : (p == Prim.str "") = true
    · simp [hpe, subOk]
    · have hpe2 : (p == Prim.str "") = false := by
        cases hh : (p == Prim.str "")
        · rfl
        · exact absurd hh hpe
      by_cases hl : (sub == "exchange" || sub == "routing_key" || sub == "queue") = true
      · simp [hpe2, hl, subOk, List.filter, hk]
      · have hl2 : (sub == "exchange" || sub == "routing_key" || sub == "queue") = false := by
          cases hh : (sub == "exchange" || sub == "routing_key" || sub == "queue")
          · rfl
          · exact absurd hh hl
        simp [hpe2, hl2, subOk, List.filter, hk]

/-- Claim C7: for every tag source whose delivery_info is a dict with
the given optional (non-empty when present) exchange, routing key and
queue entries, the final generic message-destination tag is the queue
name when present, else the routing key, else the exchange. -/
theorem destination_tag_priority (get : String → Option Val) (d : List (String × Option Prim))
    (q rk ex : Option Prim)
    (hd : get "delivery_info" = some (.flat (.fdict d)))
    (hq : lookupPrim d "queue" = q)
    (hrk : lookupPrim d "routing_key" = rk)
    (hex : lookupPrim d "exchange" = ex)
    (hqe : ∀ p, q = some p → p ≠ .str "")
    (hrke : ∀ p, rk = some p → p ≠ .str "")
    (hexe : ∀ p, ex = some p → p ≠ .str "") :
    (_set_span_tags get).map destTag =
      .ok ((q.or (rk.or ex)).map (fun p => Val.flat (.prim p))) := by
  obtain ⟨l1, h1, f1⟩ := oneTag_filter_dest get "countdown" (by decide) (by decide)
  obtain ⟨l3, h3, f3⟩ := oneTag_filter_dest get "eta" (by decide) (by decide)
  obtain ⟨l4, h4, f4⟩ := oneTag_filter_dest get "expires" (by decide) (by decide)
  obtain ⟨l5, h5, f5⟩ := oneTag_filter_dest get "group" (by decide) (by decide)
  obtain ⟨l6, h6, f6⟩ := oneTag_filter_dest get "hostname" (by decide) (by decide)
  obtain ⟨l7, h7, f7⟩ := oneTag_filter_dest get "origin" (by decide) (by decide)
  obtain ⟨l8, h8, f8⟩ := oneTag_filter_dest get "retries" (by decide) (by decide)
  obtain ⟨l9, h9, f9⟩ := oneTag_filter_dest get "timelimit" (by decide) (by decide)
  have hsent : sentinel (some (Val.flat (.fdict d))) = false := by
    simp [sentinel, Val.str]
  have hD : oneTag get "delivery_info" =
      .ok ((subtagList.map (deliverySub d)).flatten) := by
    simp [oneTag, hd, hsent]
  have hset : _set_span_tags get =
      .ok (("component", Val.str "celery") ::
        (l1 ++ ((subtagList.map (deliverySub d)).flatten ++
          (l3 ++ (l4 ++ (l5 ++ (l6 ++ (l7 ++ (l8 ++ (l9 ++ [])))))))))) := by
    simp [_set_span_tags, setTagsAux, tagAllowList, bind, Except.bind, pure, Except.pure,
      h1, hD, h3, h4, h5, h6, h7, h8, h9]
  rw [hset]
  simp only [Except.map]
  unfold destTag
  simp only [List.filter_cons, List.filter_append, f1, f3, f4, f5, f6, f7, f8, f9,
    subtagList, List.map_cons, List.map_nil, List.flatten]
  rw [deliverySub_filter_dest d "exchange" (by decide),
    deliverySub_filter_dest d "priority" (by decide),
    deliverySub_filter_dest d "redelivered" (by decide),
    deliverySub_filter_dest d "routing_key" (by decide),
    deliverySub_filter_dest d "queue" (by decide)]
  rw [hq, hrk, hex, subOk_eq_self q hqe, subOk_eq_self rk hrke, subOk_eq_self ex hexe]
  cases q <;> cases rk <;> cases ex <;>
    simp [Option.or]

theorem destination_tag_priority_witness :
    (_set_span_tags (dictGet [("delivery_info",
        some (.flat (.fdict [("queue", some (.str "q1")), ("routing_key", some (.str "r1")),
          ("exchange", some (.str "e1"))])))])).map destTag = .ok (some (Val.str "q1")) :=
  destination_tag_priority _ _ (some (.str "q1")) (some (.str "r1")) (some (.str "e1"))
    rfl rfl rfl rfl
    (by intro p hp; cases hp; decide)
    (by intro p hp; cases hp; decide)
    (by intro p hp; cases hp; decide)

theorem updateSpan_get_same (ts : TracerState) (i : Nat) (f : SpanData → SpanData) :
    (updateSpan ts i f).spans[i]? = (ts.spans[i]?).map f := by
  unfold updateSpan
  cases h : ts.spans[i]? with
  | none => simp only [h]; rfl
  | some s =>
    have hlt : i < ts.spans.length := by
      by_contra hge
      rw [List.getElem?_eq_none (Nat.le_of_not_lt hge)] at h
      cases h
    simp [h, List.getElem?_set_self, hlt]

theorem addTags_get_same (ts : TracerState) (i : Nat) (tags : List (String × Val)) :
    (addTags ts i tags).spans[i]? =
      (ts.spans[i]?).map (fun s => { s with tags := s.tags ++ tags }) :=
  updateSpan_get_same ts i _

theorem startActiveSpan_get_new (ts : TracerState) (n : String) (c : Option SpanContext)
    (ia : Bool) (tg : List (String × Val)) :
    (startActiveSpan ts n c ia tg).spans[newSpanId ts]? =
      some { name := n,
             parent := (match c with
               | some x => some x
               | none => if ia then none else ts.stack.head?.map SpanContext.ofSpan),
             tags := tg, logs := [], finished := false } := by
  unfold startActiveSpan newSpanId
  simp [List.getElem?_concat_length]

/-- Claim C1: prerun on a local task with propagation enabled: writing
`payload` for the first propagation payload found (direct request
attribute first, else the reserved header key; present payloads assumed
truthy, i.e. non-empty), the span started for the run has exactly the
context extracted from `payload` as its parent (none when no payload),
never an implicit active-span parent, and is stored under the plain
task-instance id key. -/
theorem start_span_parent_and_store (app : CeleryTracing) (st : SysState)
    (task : TaskState) (kw : Option (Option Val)) (idv : Val)
    (mtags : List (String × Val))
    (hT : st.task = some task) (hL : task.app = some app.appId)
    (hP : app.propagate = true)
    (hid : kw.getD task.request.correlationId = some idv)
    (hm : _set_span_tags (dictGet task.request.meta) = .ok mtags)
    (hattr : ∀ v, task.request.ctxAttr = some v → v.truthy = true)
    (hhdr : ∀ v, lookupD task.request.headers context_headers = some v → v.truthy = true) :
    (_start_span app kw st).2 = none ∧
    (_start_span app kw st).1.tracer.spans[newSpanId st.tracer]? =
      some { name := task.name,
             parent := ((task.request.ctxAttr).or
                 (lookupD task.request.headers context_headers)).map SpanContext.extracted,
             tags := (app.spanTags ++ [("celery.task.id", idv)]) ++ mtags,
             logs := [], finished := false } ∧
    (∀ j : Nat, ((task.request.ctxAttr).or
        (lookupD task.request.headers context_headers)).map SpanContext.extracted ≠
      some (SpanContext.ofSpan j)) ∧
    (_start_span app kw st).1.task =
      some { task with spansTable := some (setK (task.spansTable.getD []) (some idv) (newSpanId st.tracer)) } := by
  have hLb : _is_local app (some task) = true := by simp [_is_local, hL]
  have hpar :
      (match pyOr task.request.ctxAttr (lookupD task.request.headers context_headers) with
        | some c => if c.truthy then some (SpanContext.extracted c) else none
        | none => none) =
      ((task.request.ctxAttr).or
        (lookupD task.request.headers context_headers)).map SpanContext.extracted := by
    cases ha : task.request.ctxAttr with
    | some v =>
      have hv := hattr v ha
      have : pyTruthy (some v) = true := by simp [pyTruthy, hv]
      simp [pyOr, ha, this, hv, Option.or]
    | none =>
      cases hh : lookupD task.request.headers context_headers with
      | some w =>
        have hw := hhdr w hh
        simp [pyOr, ha, hh, pyTruthy, hw, Option.or]
      | none => simp [pyOr, ha, hh, pyTruthy, Option.or]
  unfold _start_span
  simp only [hT, hLb, Bool.not_true, Bool.false_eq_true, if_false, hP, if_true, hid, hm]
  refine ⟨by trivial, ?_, ?_, by trivial⟩
  · rw [addTags_get_same, addTags_get_same, startActiveSpan_get_new]
    simp only [hpar]
    cases hv : ((task.request.ctxAttr).or (lookupD task.request.headers context_headers)) with
    | none => simp [hv]
    | some c => simp [hv]
  · intro j
    cases hv : ((task.request.ctxAttr).or
        (lookupD task.request.headers context_headers)) <;> simp [hv]

theorem start_span_parent_and_store_witness :
    (_start_span ⟨1, true, []⟩ (some (some (Val.str "rid")))
        ⟨⟨[], [5]⟩, some ⟨"add",
          some 1,
          ⟨some (.flat (.fdict [("trace", some (.str "t1"))])), [], none, []⟩,
          none⟩, []⟩).1.tracer.spans[0]? =
      some { name := "add",
             parent := some (SpanContext.extracted (.flat (.fdict [("trace", some (.str "t1"))]))),
             tags := [("celery.task.id", Val.str "rid"), ("component", Val.str "celery")],
             logs := [], finished := false } := by
  have h := start_span_parent_and_store ⟨1, true, []⟩
    ⟨⟨[], [5]⟩, some ⟨"add", some 1,
      ⟨some (.flat (.fdict [("trace", some (.str "t1"))])), [], none, []⟩, none⟩, []⟩
    ⟨"add", some 1, ⟨some (.flat (.fdict [("trace", some (.str "t1"))])), [], none, []⟩, none⟩
    (some (some (Val.str "rid"))) (Val.str "rid")
    [("component", Val.str "celery")]
    rfl rfl rfl rfl rfl
    (by intro v hv; cases hv; rfl)
    (by intro v hv; cases hv)
  exact h.2.1

/-- Claim C9: on prepublish for a local task, when the id resolution
yields Python None the fatal RuntimeError is raised, but the publish
span has already been created (unfinished) and made the active scope,
and nothing was stored in the side-table: the error path does not leave
the tracer state unchanged. -/
theorem prepublish_error_path_leaves_span_active (app : CeleryTracing) (st : SysState)
    (task : TaskState) (headers : Option Dict) (body : Option Val)
    (hT : st.task = some task) (hL : task.app = some app.appId)
    (hres : resolveTaskId headers body = .ok none) :
    (_prepublish app headers body st).err =
      some (.runtimeError "task_id is never expected to be None.") ∧
    (_prepublish app headers body st).st.tracer.spans = st.tracer.spans ++
      [{ name := "publish " ++ task.name,
         parent := st.tracer.stack.head?.map SpanContext.ofSpan,
         tags := app.spanTags, logs := [], finished := false }] ∧
    (_prepublish app headers body st).st.tracer.stack =
      newSpanId st.tracer :: st.tracer.stack ∧
    (_prepublish app headers body st).st.task = st.task ∧
    (_prepublish app headers body st).st.warns = st.warns := by
  have hLb : _is_local app (some task) = true := by simp [_is_local, hL]
  unfold _prepublish
  simp only [hT, hLb, Bool.not_true, Bool.false_eq_true, if_false, hres]
  refine ⟨by trivial, by trivial, by trivial, by trivial, by trivial⟩

theorem prepublish_error_path_leaves_span_active_witness :
    (_prepublish sampleApp (some []) none sampleState).err =
      some (.runtimeError "task_id is never expected to be None.") ∧
    (_prepublish sampleApp (some []) none sampleState).st.tracer.stack = [0] ∧
    (_prepublish sampleApp (some []) none sampleState).st.task = some sampleTask := by
  have h := prepublish_error_path_leaves_span_active sampleApp sampleState sampleTask
    (some []) none rfl rfl rfl
  exact ⟨h.1, h.2.2.1, h.2.2.2.1⟩

/-- Claim C3: every lifecycle event whose resolved task is not local
(missing task, missing owning-app attribute, or a different owning app)
returns with the whole state unchanged and no exception: no span is
created, no side-table is mutated, no tag is set. -/
theorem nonlocal_event_no_effect (app : CeleryTracing) (e : Ev) (st : SysState)
    (h : _is_local app st.task = false) : step app e st = (st, none) := by
  cases hT : st.task with
  | none =>
    cases e <;>
      simp [step, _prepublish, _postpublish, _start_span, _tag_error, _tag_retry,
        _finish_span, hT]
  | some t =>
    rw [hT] at h
    cases e <;>
      simp [step, _prepublish, _postpublish, _start_span, _tag_error, _tag_retry,
        _finish_span, hT, h]

theorem nonlocal_event_no_effect_witness :
    step sampleApp (.postrun (some (Val.str "x")))
        ⟨⟨[], []⟩, some ⟨"add", some 2, emptyReq, none⟩, []⟩ =
      (⟨⟨[], []⟩, some ⟨"add", some 2, emptyReq, none⟩, []⟩, none) :=
  nonlocal_event_no_effect sampleApp (.postrun (some (Val.str "x")))
    ⟨⟨[], []⟩, some ⟨"add", some 2, emptyReq, none⟩, []⟩ rfl

theorem closeOrFinish_task (st : SysState) (sp : Option Nat) :
    (closeOrFinish st sp).1.task = st.task := by
  unfold closeOrFinish
  cases st.tracer.stack with
  | nil => rfl
  | cons a rest =>
    cases sp with
    | none => rfl
    | some s =>
      by_cases h : (a == s) = true
      · simp [h]
      · simp [h]

/-- Claim C8: after a postrun on a local task has successfully
retrieved-and-removed the span for an id, a second postrun for the same
id fails with a `KeyError` for that id instead of silently succeeding. -/
theorem double_postrun_key_error (app : CeleryTracing) (st : SysState)
    (task : TaskState) (kw : Key)
    (hT : st.task = some task) (hL : task.app = some app.appId)
    (hok : (_finish_span app kw st).2 = none) :
    (_finish_span app kw (_finish_span app kw st).1).2 = some (.keyError kw) := by
  have hLb : _is_local app (some task) = true := by simp [_is_local, hL]
  obtain ⟨tbl, sid, hTbl, hlk⟩ :
      ∃ tbl sid, task.spansTable = some tbl ∧ lookupK tbl kw = some sid := by
    unfold _finish_span at hok
    simp only [hT, hLb, Bool.not_true, Bool.false_eq_true, if_false] at hok
    cases hTbl : task.spansTable with
    | none =>
      exfalso
      have hg : _get_span task kw true = .ok (none, task) := by simp [_get_span, hTbl]
      simp only [hg] at hok
      cases hs : st.tracer.stack <;> simp [closeOrFinish, hs] at hok
    | some tbl =>
      cases hlk : lookupK tbl kw with
      | none =>
        exfalso
        have hg : _get_span task kw true = .error (.keyError kw) := by
          simp [_get_span, hTbl, hlk]
        simp only [hg] at hok
        cases hok
      | some sid => exact ⟨tbl, sid, rfl, hlk⟩
  have hg : _get_span task kw true =
      .ok (some sid, { task with spansTable := some (eraseK tbl kw) }) := by
    simp [_get_span, hTbl, hlk]
  have hfst : (_finish_span app kw st).1.task =
      some { task with spansTable := some (eraseK tbl kw) } := by
    unfold _finish_span
    simp only [hT, hLb, Bool.not_true, Bool.false_eq_true, if_false, hg]
    rw [closeOrFinish_task]
  set st1 := (_finish_span app kw st).1 with hst1
  have hLb2 : _is_local app (some { task with spansTable := some (eraseK tbl kw) }) = true := by
    simp [_is_local, hL]
  have hg2 : _get_span { task with spansTable := some (eraseK tbl kw) } kw true =
      .error (.keyError kw) := by
    simp [_get_span, lookupK_eraseK]
  unfold _finish_span
  simp only [hfst, hLb2, Bool.not_true, Bool.false_eq_true, if_false, hg2]

theorem double_postrun_key_error_witness :
    (_finish_span sampleApp (some (Val.str "tid"))
        (_finish_span sampleApp (some (Val.str "tid")) ⟨⟨[spanZero], [0]⟩, some storedTask, []⟩).1).2 =
      some (.keyError (some (Val.str "tid"))) :=
  double_postrun_key_error sampleApp ⟨⟨[spanZero], [0]⟩, some storedTask, []⟩
    storedTask (some (Val.str "tid")) rfl rfl rfl

/-- The namespaced side-table key a prepublish for id `idv` writes. -/
def pubKeyOf (idv : Val) : Key := some (Val.str ("publish:" ++ idv.format))

/-- The side-table action an event performs: prepublish and prerun
create an entry, postpublish and postrun remove one, failure and retry
only read; `none` when the id resolution fails or yields no id (such a
step raises before touching the table). -/
inductive Act where
  | create (k : Key)
  | remove (k : Key)
  | peek
deriving DecidableEq, Repr

def evAct (req : Request) : Ev → Option Act
  | .prepub h b =>
    match resolveTaskId h b with
    | .ok (some idv) => some (.create (pubKeyOf idv))
    | _ => none
  | .postpub h b =>
    match resolveTaskId h b with
    | .ok tid => some (.remove (some (Val.str ("publish:" ++ pyFormat tid))))
    | .error _ => none
  | .prerun kw =>
    match kw.getD req.correlationId with
    | some idv => some (.create (some idv))
    | none => none
  | .failure _ _ _ _ => some .peek
  | .retry _ _ _ => some .peek
  | .postrun kw => some (.remove kw)

def memK : List Key → Key → Bool
  | [], _ => false
  | a :: rest, k => (a == k) || memK rest k

def removeL : List Key → Key → List Key
  | [], _ => []
  | a :: rest, k => if a == k then rest else a :: removeL rest k

def nodupK : List Key → Bool
  | [] => true
  | a :: rest => !(memK rest a) && nodupK rest

theorem memK_removeL_self (l : List Key) (k : Key) (hnd : nodupK l = true) :
    memK (removeL l k) k = false := by
  induction l with
  | nil => rfl
  | cons a rest ih =>
    have hx := hnd
    simp only [nodupK, Bool.and_eq_true, Bool.not_eq_true'] at hx
    obtain ⟨ha, hrest⟩ := hx
    by_cases hak : a = k
    · subst hak
      simp [removeL, ha]
    · have hbeq : (a == k) = false := by simp [hak]
      simp [removeL, hbeq, memK, ih hrest]

theorem memK_removeL_ne (l : List Key) (k k' : Key) (h : ¬ k' = k) :
    memK (removeL l k) k' = memK l k' := by
  induction l with
  | nil => rfl
  | cons a rest ih =>
    by_cases hak : a = k
    · subst hak
      have hbeq : (a == a) = true := by simp
      have hkk : (a == k') = false := by
        simp only [beq_eq_false_iff_ne]
        exact fun hh => h hh.symm
      simp [removeL, hbeq, memK, hkk]
    · have hbeq : (a == k) = false := by simp [hak]
      simp only [removeL, hbeq, Bool.false_eq_true, if_false, memK, ih]

theorem nodupK_removeL (l : List Key) (k : Key) (hnd : nodupK l = true) :
    nodupK (removeL l k) = true := by
  induction l with
  | nil => rfl
  | cons a rest ih =>
    have hx := hnd
    simp only [nodupK, Bool.and_eq_true, Bool.not_eq_true'] at hx
    obtain ⟨ha, hrest⟩ := hx
    by_cases hak : a = k
    · subst hak
      simp [removeL, hrest]
    · have hbeq : (a == k) = false := by simp [hak]
      have hma : memK (removeL rest k) a = false := by
        rw [memK_removeL_ne rest k a hak]
        exact ha
      simp [removeL, hbeq, nodupK, hma, ih hrest]

/-- Host-side well-formedness: per side-table key, creations and
removals strictly alternate starting with a creation; `live` is the set
of keys currently created and not yet removed. -/
def wfFrom (req : Request) : List Key → List Ev → Bool
  | _, [] => true
  | live, e :: es =>
    match evAct req e with
    | some (.create k) => !(memK live k) && wfFrom req (k :: live) es
    | some (.remove k) => memK live k && wfFrom req (removeL live k) es
    | some .peek => wfFrom req live es
    | none => false

/-- Every step of the trace completes without raising. -/
def runOk (app : CeleryTracing) : SysState → List Ev → Bool
  | _, [] => true
  | st, e :: es =>
    match step app e st with
    | (st2, none) => runOk app st2 es
    | (_, some _) => false

def tableHas (t : Option TaskState) (k : Key) : Bool :=
  match t with
  | some task =>
    match task.spansTable with
    | some tbl => (lookupK tbl k).isSome
    | none => false
  | none => false

/-- No creation step finds its key already live in the side-table. -/
def noOverwrite (app : CeleryTracing) (req : Request) : SysState → List Ev → Bool
  | _, [] => true
  | st, e :: es =>
    (match evAct req e with
      | some (.create k) => !(tableHas st.task k)
      | _ => true) && noOverwrite app req (step app e st).1 es

theorem prepub_ok_table (app : CeleryTracing) (hd : Option Dict) (b : Option Val)
    (st : SysState) (task : TaskState)
    (hT : st.task = some task) (hL : task.app = some app.appId)
    (hok : (_prepublish app hd b st).err = none) :
    ∃ idv, resolveTaskId hd b = .ok (some idv) ∧
      (_prepublish app hd b st).st.task =
        some { task with spansTable := some (setK (task.spansTable.getD []) (pubKeyOf idv) (newSpanId st.tracer)) } := by
  have hLb : _is_local app (some task) = true := by simp [_is_local, hL]
  unfold _prepublish at hok ⊢
  simp only [hT, hLb, Bool.not_true, Bool.false_eq_true, if_false] at hok ⊢
  cases hres : resolveTaskId hd b with
  | error e => simp only [hres] at hok; cases hok
  | ok tid =>
    cases tid with
    | none => simp only [hres] at hok; cases hok
    | some idv =>
      refine ⟨idv, rfl, ?_⟩
      simp only [hres] at hok ⊢
      revert hok
      split
      · intro hok; simp at hok
      · split
        · intro hok; simp at hok
        · split
          · intro hok; simp at hok
          · split
            · intro hok; simp at hok
            · split
              · intro _; rfl
              · split
                · intro hok; simp at hok
                · intro _; rfl

theorem prerun_ok_table (app : CeleryTracing) (kw : Option (Option Val))
    (st : SysState) (task : TaskState)
    (hT : st.task = some task) (hL : task.app = some app.appId)
    (hok : (_start_span app kw st).2 = none) :
    ∃ idv, kw.getD task.request.correlationId = some idv ∧
      (_start_span app kw st).1.task =
        some { task with spansTable := some (setK (task.spansTable.getD []) (some idv) (newSpanId st.tracer)) } := by
  have hLb : _is_local app (some task) = true := by simp [_is_local, hL]
  unfold _start_span at hok ⊢
  simp only [hT, hLb, Bool.not_true, Bool.false_eq_true, if_false] at hok ⊢
  cases hid : kw.getD task.request.correlationId with
  | none => simp only [hid] at hok; cases hok
  | some idv =>
    refine ⟨idv, rfl, ?_⟩
    simp only [hid] at hok ⊢
    revert hok
    split
    · intro hok; simp at hok
    · intro _; rfl

theorem postpub_ok_table (app : CeleryTracing) (hd : Option Dict) (b : Option Val)
    (st : SysState) (task : TaskState)
    (hT : st.task = some task) (hL : task.app = some app.appId)
    (hok : (_postpublish app hd b st).2 = none) :
    ∃ tid tbl, resolveTaskId hd b = .ok tid ∧ task.spansTable = some tbl ∧
      (_postpublish app hd b st).1.task =
        some { task with spansTable := some (eraseK tbl (some (Val.str ("publish:" ++ pyFormat tid)))) } := by
  have hLb : _is_local app (some task) = true := by simp [_is_local, hL]
  unfold _postpublish at hok ⊢
  simp only [hT, hLb, Bool.not_true, Bool.false_eq_true, if_false] at hok ⊢
  cases hres : resolveTaskId hd b with
  | error e => simp only [hres] at hok; cases hok
  | ok tid =>
    simp only [hres] at hok ⊢
    cases hTbl : task.spansTable with
    | none =>
      exfalso
      have hg : _get_span task (some (Val.str ("publish:" ++ pyFormat tid))) true =
          .ok (none, task) := by simp [_get_span, hTbl]
      simp only [hg] at hok
      cases hs : st.tracer.stack <;> simp [closeOrFinish, hs] at hok
    | some tbl =>
      cases hlk : lookupK tbl (some (Val.str ("publish:" ++ pyFormat tid))) with
      | none =>
        exfalso
        have hg : _get_span task (some (Val.str ("publish:" ++ pyFormat tid))) true =
            .error (.keyError (some (Val.str ("publish:" ++ pyFormat tid)))) := by
          simp [_get_span, hTbl, hlk]
        simp only [hg] at hok
        cases hok
      | some sid =>
        have htask2 : { task with spansTable := some (eraseK tbl (some (Val.str ("publish:" ++ pyFormat tid)))) } = { task with spansTable := some (eraseK tbl (some (Val.str ("publish:" ++ pyFormat tid)))) } := rfl
        have hg : _get_span task (some (Val.str ("publish:" ++ pyFormat tid))) true =
            .ok (some sid, { task with spansTable := some (eraseK tbl (some (Val.str ("publish:" ++ pyFormat tid)))) }) := by
          simp [_get_span, hTbl, hlk]
        refine ⟨tid, tbl, rfl, rfl, ?_⟩
        simp only [hg]
        rw [closeOrFinish_task]

theorem postrun_ok_table (app : CeleryTracing) (kw : Key)
    (st : SysState) (task : TaskState)
    (hT : st.task = some task) (hL : task.app = some app.appId)
    (hok : (_finish_span app kw st).2 = none) :
    ∃ tbl, task.spansTable = some tbl ∧
      (_finish_span app kw st).1.task =
        some { task with spansTable := some (eraseK tbl kw) } := by
  have hLb : _is_local app (some task) = true := by simp [_is_local, hL]
  unfold _finish_span at hok ⊢
  simp only [hT, hLb, Bool.not_true, Bool.false_eq_true, if_false] at hok ⊢
  cases hTbl : task.spansTable with
  | none =>
    exfalso
    have hg : _get_span task kw true = .ok (none, task) := by simp [_get_span, hTbl]
    simp only [hg] at hok
    cases hs : st.tracer.stack <;> simp [closeOrFinish, hs] at hok
  | some tbl =>
    cases hlk : lookupK tbl kw with
    | none =>
      exfalso
      have hg : _get_span task kw true = .error (.keyError kw) := by
        simp [_get_span, hTbl, hlk]
      simp only [hg] at hok
      cases hok
    | some sid =>
      have hg : _get_span task kw true =
          .ok (some sid, { task with spansTable := some (eraseK tbl kw) }) := by
        simp [_get_span, hTbl, hlk]
      refine ⟨tbl, rfl, ?_⟩
      simp only [hg]
      rw [closeOrFinish_task]

theorem tag_error_task_unchanged (app : CeleryTracing) (kw : Key) (exc : Option Exc)
    (einfo : Option EInfo) (tb : Option Nat) (st : SysState) :
    (_tag_error app kw exc einfo tb st).1.task = st.task := by
  unfold _tag_error
  split
  · rfl
  · split
    · rfl
    · split
      · rfl
      · split
        · rfl
        · rfl

theorem tag_retry_task_unchanged (app : CeleryTracing) (request : Option Dict)
    (reason : Option Val) (einfo : Option REInfo) (st : SysState) :
    (_tag_retry app request reason einfo st).1.task = st.task := by
  unfold _tag_retry
  dsimp only
  repeat' split
  all_goals rfl

theorem runOk_cons (app : CeleryTracing) (e : Ev) (st : SysState) (es : List Ev)
    (h : runOk app st (e :: es) = true) :
    (step app e st).2 = none ∧ runOk app (step app e st).1 es = true := by
  unfold runOk at h
  cases hs : step app e st with
  | mk st2 err =>
    rw [hs] at h
    cases err with
    | none => exact ⟨rfl, h⟩
    | some e2 => cases h

theorem tableHas_getD (st : SysState) (task : TaskState) (hT : st.task = some task) (k : Key) :
    (lookupK (task.spansTable.getD []) k).isSome = tableHas st.task k := by
  rw [hT]
  unfold tableHas
  cases h : task.spansTable with
  | none => simp [h, lookupK]
  | some tbl => simp [h]

/-- Claim C5 amended: along any trace of local lifecycle events in which
every handler completes without raising and, per side-table key,
creations and removals strictly alternate (the non-overlapping-
lifecycle assumption, stated on namespaced keys so that a run id may
not collide with a live publish key), no creation at prepublish or
prerun ever finds its key already present in the side-table: creation
never implicitly overwrites a live entry. -/
theorem wf_trace_no_overwrite (app : CeleryTracing) (req : Request) (es : List Ev) :
    ∀ (st : SysState) (task : TaskState) (live : List Key),
    st.task = some task → task.app = some app.appId → task.request = req →
    (∀ k, tableHas st.task k = memK live k) →
    nodupK live = true →
    wfFrom req live es = true → runOk app st es = true →
    noOverwrite app req st es = true := by
  induction es with
  | nil =>
    intro st task live _ _ _ _ _ _ _
    rfl
  | cons e rest ih =>
    intro st task live hT hL hreq hag hnd hwf hok
    obtain ⟨hse, hsr⟩ := runOk_cons app e st rest hok
    unfold noOverwrite
    unfold wfFrom at hwf
    rw [Bool.and_eq_true]
    cases e with
    | prepub hd b =>
      have hpe : (_prepublish app hd b st).err = none := by
        simpa [step] using hse
      obtain ⟨idv, hres, htask⟩ := prepub_ok_table app hd b st task hT hL hpe
      have hact : evAct req (.prepub hd b) = some (.create (pubKeyOf idv)) := by
        simp [evAct, hres]
      rw [hact] at hwf
      simp only [Bool.and_eq_true, Bool.not_eq_true'] at hwf
      obtain ⟨hmem, hwf2⟩ := hwf
      have hstep1 : (step app (.prepub hd b) st).1 = (_prepublish app hd b st).st := by
        simp [step]
      constructor
      · rw [hact]
        simp only [Bool.not_eq_true']
        rw [hag]
        exact hmem
      · rw [hstep1]
        rw [hstep1] at hsr
        apply ih (_prepublish app hd b st).st
          { task with spansTable := some (setK (task.spansTable.getD []) (pubKeyOf idv) (newSpanId st.tracer)) }
          (pubKeyOf idv :: live) htask hL hreq ?_ ?_ hwf2 hsr
        · intro k
          rw [htask]
          show (lookupK (setK (task.spansTable.getD []) (pubKeyOf idv) (newSpanId st.tracer)) k).isSome =
            memK (pubKeyOf idv :: live) k
          rw [lookupK_setK]
          by_cases hk : k = pubKeyOf idv
          · simp [hk, memK]
          · have hne : (pubKeyOf idv == k) = false := by
              simp only [beq_eq_false_iff_ne]
              exact fun hh => hk hh.symm
            rw [if_neg hk]
            rw [tableHas_getD st task hT k, hag]
            simp [memK, hne]
        · simp [nodupK, hmem, hnd]
    | postpub hd b =>
      have hpe : (_postpublish app hd b st).2 = none := by
        simpa [step] using hse
      obtain ⟨tid, tbl, hres, hTbl, htask⟩ := postpub_ok_table app hd b st task hT hL hpe
      have hact : evAct req (.postpub hd b) =
          some (.remove (some (Val.str ("publish:" ++ pyFormat tid)))) := by
        simp [evAct, hres]
      rw [hact] at hwf
      simp only [Bool.and_eq_true] at hwf
      obtain ⟨hmem, hwf2⟩ := hwf
      have hstep1 : (step app (.postpub hd b) st).1 = (_postpublish app hd b st).1 := by
        simp [step]
      constructor
      · rw [hact]
      · rw [hstep1]
        rw [hstep1] at hsr
        apply ih (_postpublish app hd b st).1
          { task with spansTable := some (eraseK tbl (some (Val.str ("publish:" ++ pyFormat tid)))) }
          (removeL live (some (Val.str ("publish:" ++ pyFormat tid)))) htask hL hreq ?_
          (nodupK_removeL live _ hnd) hwf2 hsr
        intro k
        rw [htask]
        show (lookupK (eraseK tbl (some (Val.str ("publish:" ++ pyFormat tid)))) k).isSome =
          memK (removeL live (some (Val.str ("publish:" ++ pyFormat tid)))) k
        rw [lookupK_eraseK]
        by_cases hk : k = some (Val.str ("publish:" ++ pyFormat tid))
        · rw [if_pos hk, hk, memK_removeL_self live _ hnd]
          rfl
        · rw [if_neg hk, memK_removeL_ne live _ k hk]
          have : tableHas st.task k = (lookupK tbl k).isSome := by
            rw [hT]
            simp [tableHas, hTbl]
          rw [← this, hag]
    | prerun kw =>
      have hpe : (_start_span app kw st).2 = none := by
        simpa [step] using hse
      obtain ⟨idv, hid, htask⟩ := prerun_ok_table app kw st task hT hL hpe
      rw [hreq] at hid
      have hact : evAct req (.prerun kw) = some (.create (some idv)) := by
        simp [evAct, hid]
      rw [hact] at hwf
      simp only [Bool.and_eq_true, Bool.not_eq_true'] at hwf
      obtain ⟨hmem, hwf2⟩ := hwf
      have hstep1 : (step app (.prerun kw) st).1 = (_start_span app kw st).1 := by
        simp [step]
      constructor
      · rw [hact]
        simp only [Bool.not_eq_true']
        rw [hag]
        exact hmem
      · rw [hstep1]
        rw [hstep1] at hsr
        apply ih (_start_span app kw st).1
          { task with spansTable := some (setK (task.spansTable.getD []) (some idv) (newSpanId st.tracer)) }
          (some idv :: live) htask hL hreq ?_ ?_ hwf2 hsr
        · intro k
          rw [htask]
          show (lookupK (setK (task.spansTable.getD []) (some idv) (newSpanId st.tracer)) k).isSome =
            memK (some idv :: live) k
          rw [lookupK_setK]
          by_cases hk : k = some idv
          · simp [hk, memK]
          · have hne : (some idv == k) = false := by
              simp only [beq_eq_false_iff_ne]
              exact fun hh => hk hh.symm
            rw [if_neg hk]
            rw [tableHas_getD st task hT k, hag]
            simp [memK, hne]
        · simp [nodupK, hmem, hnd]
    | failure kw exc ei tb =>
      have htask : (step app (.failure kw exc ei tb) st).1.task = st.task := by
        simp [step, tag_error_task_unchanged]
      constructor
      · rw [show evAct req (.failure kw exc ei tb) = some .peek from rfl]
      · apply ih (step app (.failure kw exc ei tb) st).1 task live ?_ hL hreq ?_ hnd hwf hsr
        · rw [htask, hT]
        · intro k
          rw [htask]
          exact hag k
    | retry rq rs ei =>
      have htask : (step app (.retry rq rs ei) st).1.task = st.task := by
        simp [step, tag_retry_task_unchanged]
      constructor
      · rw [show evAct req (.retry rq rs ei) = some .peek from rfl]
      · apply ih (step app (.retry rq rs ei) st).1 task live ?_ hL hreq ?_ hnd hwf hsr
        · rw [htask, hT]
        · intro k
          rw [htask]
          exact hag k
    | postrun kw =>
      have hpe : (_finish_span app kw st).2 = none := by
        simpa [step] using hse
      obtain ⟨tbl, hTbl, htask⟩ := postrun_ok_table app kw st task hT hL hpe
      have hact : evAct req (.postrun kw) = some (.remove kw) := rfl
      rw [hact] at hwf
      simp only [Bool.and_eq_true] at hwf
      obtain ⟨hmem, hwf2⟩ := hwf
      have hstep1 : (step app (.postrun kw) st).1 = (_finish_span app kw st).1 := by
        simp [step]
      constructor
      · rw [hact]
      · rw [hstep1]
        rw [hstep1] at hsr
        apply ih (_finish_span app kw st).1
          { task with spansTable := some (eraseK tbl kw) }
          (removeL live kw) htask hL hreq ?_ (nodupK_removeL live kw hnd) hwf2 hsr
        intro k
        rw [htask]
        show (lookupK (eraseK tbl kw) k).isSome = memK (removeL live kw) k
        rw [lookupK_eraseK]
        by_cases hk : k = kw
        · rw [if_pos hk, hk, memK_removeL_self live kw hnd]
          rfl
        · rw [if_neg hk, memK_removeL_ne live kw k hk]
          have : tableHas st.task k = (lookupK tbl k).isSome := by
            rw [hT]
            simp [tableHas, hTbl]
          rw [← this, hag]

/-- A mapping body with no entries (id comes from the headers). -/
def bodyEmptyDict : Option Val := some (.flat (.fdict []))

def prepubAbc : Ev := .prepub (some abcHeaders) bodyEmptyDict

def postpubAbc : Ev := .postpub (some abcHeaders) bodyEmptyDict

/-- A prerun whose task-instance id collides with the namespaced
publish key of the distinct instance id `"abc"`. -/
def prerunCollide : Ev := .prerun (some (some (Val.str "publish:abc")))

/-- Claim C5 counterexample: a prepublish for id `"abc"` followed by a
prerun for the different id `"publish:abc"` — two distinct task
instances, so the per-id non-overlap assumption is honored — both
complete, yet the prerun silently overwrites the still-live publish
entry: the key now maps to span 1 while span 0 is unfinished and gone
from the side-table. -/
theorem prerun_overwrites_live_publish_entry :
    (step sampleApp prepubAbc sampleState).2 = none ∧
    (step sampleApp prerunCollide (step sampleApp prepubAbc sampleState).1).2 = none ∧
    resolveTaskId (some abcHeaders) bodyEmptyDict = .ok (some (Val.str "abc")) ∧
    Val.str "abc" ≠ Val.str "publish:abc" ∧
    (step sampleApp prepubAbc sampleState).1.task =
      some { sampleTask with spansTable := some [(pubKeyOf (Val.str "abc"), 0)] } ∧
    (step sampleApp prerunCollide (step sampleApp prepubAbc sampleState).1).1.task =
      some { sampleTask with spansTable := some [(pubKeyOf (Val.str "abc"), 1)] } ∧
    (((step sampleApp prerunCollide (step sampleApp prepubAbc sampleState).1).1.tracer.spans[0]?).map
      (fun s => s.finished)) = some false := by
  refine ⟨rfl, rfl, rfl, by decide, rfl, rfl, rfl⟩

theorem wf_trace_no_overwrite_witness :
    noOverwrite sampleApp emptyReq sampleState [prepubAbc, postpubAbc] = true :=
  wf_trace_no_overwrite sampleApp emptyReq [prepubAbc, postpubAbc] sampleState sampleTask []
    rfl rfl rfl (fun _ => rfl) rfl rfl rfl

end CeleryOT
